import Mathlib

/-!
Verification of the Repository Context & Agent Orchestration Engine of the
M31-Mini repository (TypeScript sources `src/services/ai-service.ts` and
`src/services/github-service.ts`), against its natural-language specification.

The TypeScript functions are shallow-embedded as executable Lean definitions.
JavaScript strings are modelled as Lean `String` (operating on their `data`
character lists where that makes the translation transparent); network and
filesystem effects are modelled by passing the outcome of the effect as an
explicit argument.
-/

/-! ## Relevance Selector (`ai-service.ts`, `identifyImportantFiles`, lines 409-471) -/

/-- Model of JavaScript `String.prototype.toLowerCase` (ASCII case folding,
as applied to the repository file paths). -/
def lowerStr (s : String) : String := String.mk (s.data.map Char.toLower)

/-- Model of an end-anchored literal regular-expression test such as
`/readme\.md$/` : the string ends with the given literal suffix. -/
def endsWithStr (s suffix : String) : Bool := suffix.data.isSuffixOf s.data

/-- The fixed, ordered list of canonical-name patterns from
`identifyImportantFiles` (`importantPatterns`, lines 414-422).  Each regex
`/X$/i` is applied to `file.toLowerCase()`, hence the `lowerStr` and the
lower-case literals. -/
def importantPatterns : List (String → Bool) :=
  [ fun f => endsWithStr (lowerStr f) "readme.md",
    fun f => endsWithStr (lowerStr f) "requirements.txt",
    fun f => endsWithStr (lowerStr f) "setup.py",
    fun f => endsWithStr (lowerStr f) "package.json",
    fun f => endsWithStr (lowerStr f) "main.py" || endsWithStr (lowerStr f) "main.js" ||
      endsWithStr (lowerStr f) "main.ts",
    fun f => endsWithStr (lowerStr f) "index.py" || endsWithStr (lowerStr f) "index.js" ||
      endsWithStr (lowerStr f) "index.ts",
    fun f => endsWithStr (lowerStr f) "app.py" || endsWithStr (lowerStr f) "app.js" ||
      endsWithStr (lowerStr f) "app.ts" ]

/-- The push loop `for (const match of matches) { if (importantFiles.length >=
maxFiles) break; if (!importantFiles.includes(match)) importantFiles.push(match) }`
(lines 446-451, and again lines 463-468 for the leftover phase). -/
def fillDedup (maxFiles : Nat) (acc : List String) (xs : List String) : List String :=
  xs.foldl
    (fun a f => if maxFiles ≤ a.length then a else if a.contains f then a else a ++ [f])
    acc

/-- The Python-file push loop `for (const file of pythonFiles) { if (...) break;
importantFiles.push(file) }` (lines 457-460); note the source pushes without a
duplicate check here. -/
def fillNoDedup (maxFiles : Nat) (acc : List String) (xs : List String) : List String :=
  xs.foldl (fun a f => if maxFiles ≤ a.length then a else a ++ [f]) acc

/-- Phase 1 of `identifyImportantFiles` (lines 442-452): for each pattern in
order, append its matches, deduplicated and capped at `maxFiles`. -/
def patternPhase (allFiles : List String) (maxFiles : Nat) : List String :=
  importantPatterns.foldl (fun acc pat => fillDedup maxFiles acc (allFiles.filter pat)) []

/-- `const pythonFiles = allFiles.filter(file => file.endsWith('.py') &&
!importantFiles.includes(file))` (line 455). -/
def pythonLeft (allFiles : List String) (acc : List String) : List String :=
  allFiles.filter (fun f => endsWithStr f ".py" && !(acc.contains f))

/-- `identifyImportantFiles` (lines 409-471), parameterised by the collected
file list and the budget (`maxFiles`, hard-coded to 10 at line 411): pattern
matches first, then remaining Python files, then leftover files in traversal
order. -/
def identifyImportantFilesFrom (allFiles : List String) (maxFiles : Nat) : List String :=
  let afterPatterns := patternPhase allFiles maxFiles
  let afterPython := fillNoDedup maxFiles afterPatterns (pythonLeft allFiles afterPatterns)
  fillDedup maxFiles afterPython allFiles

/-- `FileTree` (`github-service.ts` lines 306-312): a file, or a directory with
ordered children. -/
inductive FileTree where
  | file (name : String)
  | dir (name : String) (children : List FileTree)
deriving Repr

mutual

/-- The `collectFiles` helper of `identifyImportantFiles` (lines 427-437):
depth-first collection of slash-joined file paths. -/
def collectFiles : FileTree → String → List String
  | .file name, path => [if path = "" then name else path ++ "/" ++ name]
  | .dir name children, path =>
    collectFilesList (if path = "" then name else path ++ "/" ++ name) children

/-- Collection over an ordered child list (the `for (const child of
node.children)` loop at lines 433-435). -/
def collectFilesList (path : String) : List FileTree → List String
  | [] => []
  | t :: ts => collectFiles t path ++ collectFilesList path ts

end

/-- `identifyImportantFiles(fileTree)` as called in the source: collect all file
paths starting from the empty path prefix, then select with the hard-coded
budget of 10. -/
def identifyImportantFiles (fileTree : FileTree) : List String :=
  identifyImportantFilesFrom (collectFiles fileTree "") 10

/-- Claim C4: on the file list `[readme.md, main.py, utils.py, image.png]` with
budget 3, the Relevance Selector returns exactly the ordered, duplicate-free
list `[readme.md, main.py, utils.py]`: `readme.md` matches the readme pattern,
`main.py` the entry-point pattern, and `utils.py` fills the last slot in the
Python-file phase. -/
theorem claim4_selector_scenarioA :
    identifyImportantFilesFrom ["readme.md", "main.py", "utils.py", "image.png"] 3 =
      ["readme.md", "main.py", "utils.py"] ∧
    (["readme.md", "main.py", "utils.py"] : List String).Nodup := by
  constructor
  · rfl
  · decide

/-- Claim C2, counterexample: in the list `[a.js, b.js, c.py]` the dominant
source-language extension is `.js` (two files against one `.py` file), yet the
selector places the single `.py` file first: the code hard-codes a preference
for Python files (line 455), it does not compute the dominant extension. -/
theorem claim2_counterexample :
    (["a.js", "b.js", "c.py"].filter (fun f => endsWithStr f ".js")).length = 2 ∧
    (["a.js", "b.js", "c.py"].filter (fun f => endsWithStr f ".py")).length = 1 ∧
    identifyImportantFilesFrom ["a.js", "b.js", "c.py"] 10 = ["c.py", "a.js", "b.js"] := by
  refine ⟨by decide, by decide, rfl⟩

/-- Appending capped, unchecked pushes yields the accumulator followed by some
elements of the pushed list. -/
theorem fillNoDedup_spec (cap : Nat) :
    ∀ (xs acc : List String), ∃ ys,
      fillNoDedup cap acc xs = acc ++ ys ∧ ∀ y ∈ ys, y ∈ xs := by
  intro xs
  induction xs with
  | nil => exact fun acc => ⟨[], by simp [fillNoDedup]⟩
  | cons x xs ih =>
    intro acc
    by_cases h : cap ≤ acc.length
    · obtain ⟨ys, hys, hmem⟩ := ih acc
      refine ⟨ys, ?_, fun y hy => List.mem_cons_of_mem _ (hmem y hy)⟩
      simpa [fillNoDedup, h] using hys
    · obtain ⟨ys, hys, hmem⟩ := ih (acc ++ [x])
      refine ⟨x :: ys, ?_, ?_⟩
      · simp only [fillNoDedup, List.foldl_cons, if_neg h] at hys ⊢
        rw [hys, List.append_assoc]
        rfl
      · intro y hy
        rcases List.mem_cons.mp hy with rfl | hy
        · exact List.mem_cons_self _ _
        · exact List.mem_cons_of_mem _ (hmem y hy)

/-- If the capped push loop finished strictly below the cap, it pushed every
element of its input list. -/
theorem fillNoDedup_all (cap : Nat) :
    ∀ (xs acc : List String), (fillNoDedup cap acc xs).length < cap →
      fillNoDedup cap acc xs = acc ++ xs := by
  intro xs
  induction xs with
  | nil => intro acc _; simp [fillNoDedup]
  | cons x xs ih =>
    intro acc hlen
    by_cases h : cap ≤ acc.length
    · exfalso
      have hstep : fillNoDedup cap acc (x :: xs) = fillNoDedup cap acc xs := by
        simp [fillNoDedup, h]
      obtain ⟨ys, hys, -⟩ := fillNoDedup_spec cap xs acc
      rw [hstep, hys] at hlen
      simp only [List.length_append] at hlen
      omega
    · have hstep : fillNoDedup cap acc (x :: xs) = fillNoDedup cap (acc ++ [x]) xs := by
        simp [fillNoDedup, h]
      rw [hstep] at hlen ⊢
      rw [ih (acc ++ [x]) hlen, List.append_assoc]
      rfl

/-- Step equation for `fillDedup` when the cap is already reached. -/
theorem fillDedup_cons_cap (cap : Nat) (acc : List String) (x : String) (xs : List String)
    (h : cap ≤ acc.length) : fillDedup cap acc (x :: xs) = fillDedup cap acc xs := by
  show List.foldl _ (if cap ≤ acc.length then acc else _) xs = _
  rw [if_pos h]
  rfl

/-- Step equation for `fillDedup` when the element is a duplicate. -/
theorem fillDedup_cons_dup (cap : Nat) (acc : List String) (x : String) (xs : List String)
    (h : ¬ cap ≤ acc.length) (hc : acc.contains x = true) :
    fillDedup cap acc (x :: xs) = fillDedup cap acc xs := by
  show List.foldl _
    (if cap ≤ acc.length then acc else if acc.contains x then acc else acc ++ [x]) xs = _
  rw [if_neg h, if_pos hc]
  rfl

/-- Step equation for `fillDedup` when the element is pushed. -/
theorem fillDedup_cons_push (cap : Nat) (acc : List String) (x : String) (xs : List String)
    (h : ¬ cap ≤ acc.length) (hc : ¬ acc.contains x = true) :
    fillDedup cap acc (x :: xs) = fillDedup cap (acc ++ [x]) xs := by
  show List.foldl _
    (if cap ≤ acc.length then acc else if acc.contains x then acc else acc ++ [x]) xs = _
  rw [if_neg h, if_neg hc]
  rfl

/-- The deduplicated capped push loop yields the accumulator followed by some
elements of the pushed list that were not already in the accumulator. -/
theorem fillDedup_spec (cap : Nat) :
    ∀ (xs acc : List String), ∃ zs,
      fillDedup cap acc xs = acc ++ zs ∧ ∀ z ∈ zs, z ∈ xs ∧ z ∉ acc := by
  intro xs
  induction xs with
  | nil => exact fun acc => ⟨[], by simp [fillDedup]⟩
  | cons x xs ih =>
    intro acc
    by_cases h : cap ≤ acc.length
    · obtain ⟨zs, hzs, hmem⟩ := ih acc
      refine ⟨zs, ?_, fun z hz => ⟨List.mem_cons_of_mem _ (hmem z hz).1, (hmem z hz).2⟩⟩
      rw [fillDedup_cons_cap cap acc x xs h, hzs]
    · by_cases hc : acc.contains x = true
      · obtain ⟨zs, hzs, hmem⟩ := ih acc
        refine ⟨zs, ?_, fun z hz => ⟨List.mem_cons_of_mem _ (hmem z hz).1, (hmem z hz).2⟩⟩
        rw [fillDedup_cons_dup cap acc x xs h hc, hzs]
      · obtain ⟨zs, hzs, hmem⟩ := ih (acc ++ [x])
        refine ⟨x :: zs, ?_, ?_⟩
        · rw [fillDedup_cons_push cap acc x xs h hc, hzs, List.append_assoc]
          rfl
        · intro z hz
          rcases List.mem_cons.mp hz with rfl | hz
          · exact ⟨List.mem_cons_self _ _, fun hmemacc => hc (List.elem_iff.mpr hmemacc)⟩
          · refine ⟨List.mem_cons_of_mem _ (hmem z hz).1, fun hmemacc => (hmem z hz).2 ?_⟩
            exact List.mem_append_left _ hmemacc

/-- Claim C2, amended: after the canonical-name pattern phase, the selector
fills the remaining budget with the repository's `.py` files specifically (the
preference for Python is hard-coded; the dominant extension is never computed),
and only then falls back to leftover files; moreover if the budget was not
exhausted by the Python phase, every leftover file selected afterwards is a
non-Python file. -/
theorem claim2_python_phase (allFiles : List String) (maxFiles : Nat) :
    ∃ pys others,
      identifyImportantFilesFrom allFiles maxFiles =
        patternPhase allFiles maxFiles ++ pys ++ others ∧
      (∀ y ∈ pys, endsWithStr y ".py" = true) ∧
      ((patternPhase allFiles maxFiles ++ pys).length < maxFiles →
        ∀ o ∈ others, endsWithStr o ".py" = false) := by
  obtain ⟨pys, hpys, hpymem⟩ :=
    fillNoDedup_spec maxFiles (pythonLeft allFiles (patternPhase allFiles maxFiles))
      (patternPhase allFiles maxFiles)
  obtain ⟨others, hoth, hothmem⟩ :=
    fillDedup_spec maxFiles allFiles (patternPhase allFiles maxFiles ++ pys)
  refine ⟨pys, others, ?_, ?_, ?_⟩
  · show fillDedup maxFiles
      (fillNoDedup maxFiles (patternPhase allFiles maxFiles)
        (pythonLeft allFiles (patternPhase allFiles maxFiles))) allFiles = _
    rw [hpys, hoth, List.append_assoc]
  · intro y hy
    have hyP := hpymem y hy
    have hand := (List.mem_filter.mp hyP).2
    simp only [Bool.and_eq_true] at hand
    exact hand.1
  · intro hlen o ho
    have hall : fillNoDedup maxFiles (patternPhase allFiles maxFiles)
        (pythonLeft allFiles (patternPhase allFiles maxFiles)) =
        patternPhase allFiles maxFiles ++
          pythonLeft allFiles (patternPhase allFiles maxFiles) := by
      apply fillNoDedup_all
      rw [hpys]
      exact hlen
    have hPeq : pys = pythonLeft allFiles (patternPhase allFiles maxFiles) :=
      List.append_cancel_left (hpys.symm.trans hall)
    have hnotin : o ∉ patternPhase allFiles maxFiles ++ pys := (hothmem o ho).2
    by_contra hpyo
    have hpyo' : endsWithStr o ".py" = true := by
      cases hb : endsWithStr o ".py" with
      | false => exact absurd hb hpyo
      | true => rfl
    by_cases hA : o ∈ patternPhase allFiles maxFiles
    · exact hnotin (List.mem_append_left _ hA)
    · have hcA : (patternPhase allFiles maxFiles).contains o = false := by
        cases hb : (patternPhase allFiles maxFiles).contains o with
        | false => rfl
        | true => exact absurd (List.elem_iff.mp hb) hA
      have hoP : o ∈ pythonLeft allFiles (patternPhase allFiles maxFiles) := by
        apply List.mem_filter.mpr
        refine ⟨(hothmem o ho).1, ?_⟩
        rw [hpyo', hcA]
        rfl
      rw [← hPeq] at hoP
      exact hnotin (List.mem_append_right _ hoP)

/-- Witness for the amended Claim C2 theorem, instantiated at a small concrete
repository file list and budget. -/
theorem claim2_python_phase_witness :
    ∃ pys others,
      identifyImportantFilesFrom ["a.js", "b.js", "c.py"] 10 =
        patternPhase ["a.js", "b.js", "c.py"] 10 ++ pys ++ others ∧
      (∀ y ∈ pys, endsWithStr y ".py" = true) ∧
      ((patternPhase ["a.js", "b.js", "c.py"] 10 ++ pys).length < 10 →
        ∀ o ∈ others, endsWithStr o ".py" = false) :=
  claim2_python_phase ["a.js", "b.js", "c.py"] 10

/-! ## Resilience Layer (`ai-service.ts`, `generateCompletionWithFallback`, lines 612-655)

`generateCompletion` performs one network completion request; it is modelled
as an oracle `complete : Nat → String → Except String String` mapping the
global call index and the model identifier to either a thrown error message or
the returned content. -/

/-- The ordered fallback model list of `generateCompletionWithFallback`
(lines 636-640); the same three identifiers are also the critical fallback
list of `checkApiConnectivity` (line 1477). -/
def fallbackModels : List String :=
  ["google/gemini-pro", "anthropic/claude-instant-1", "mistralai/mistral-7b-instruct"]

/-- Loop state of `generateCompletionWithFallback`: the next call index of the
completion oracle and the `lastError` variable (line 619). -/
structure FallbackState where
  calls : Nat
  lastError : Option String
deriving Repr

/-- The primary-model retry loop (lines 622-633): up to `maxRetries` attempts,
returning the first success; each failure updates `lastError`. -/
def primaryPhase (complete : Nat → String → Except String String) (primary : String) :
    Nat → FallbackState → Except FallbackState String
  | 0, st => .error st
  | n + 1, st =>
    match complete st.calls primary with
    | .ok c => .ok c
    | .error e => primaryPhase complete primary n { calls := st.calls + 1, lastError := some e }

/-- The fallback loop (lines 642-651) followed by the final `throw` (line 654):
each distinct fallback model is tried once; a failure is only logged — note
that `lastError` is NOT updated here, exactly as in the source — and on
exhaustion the retained `lastError` (or a generic message) is thrown. -/
def fallbackPhase (complete : Nat → String → Except String String) (primary : String) :
    List String → FallbackState → Except String String
  | [], st => .error (st.lastError.getD "All models failed to generate completion")
  | m :: ms, st =>
    if m = primary then fallbackPhase complete primary ms st
    else
      match complete st.calls m with
      | .ok c => .ok c
      | .error _ => fallbackPhase complete primary ms { st with calls := st.calls + 1 }

/-- `generateCompletionWithFallback` (lines 613-655): retry the primary model
`maxRetries` times (default 2), then try the fallback chain, and on total
failure throw the retained `lastError`. -/
def generateCompletionWithFallback (complete : Nat → String → Except String String)
    (primary : String) (maxRetries : Nat) : Except String String :=
  match primaryPhase complete primary maxRetries { calls := 0, lastError := none } with
  | .ok c => .ok c
  | .error st => fallbackPhase complete primary fallbackModels st

/-- Completion oracle in which every call fails with the call index as the
error message: call 0 and 1 go to the primary model, calls 2, 3, 4 to the
three fallback models. -/
def cComplete (k : Nat) (_ : String) : Except String String := Except.error (toString k)

/-- Claim C1, counterexample: with every model failing (primary errors "0" and
"1", fallback errors "2", "3", "4"), `generateCompletionWithFallback` raises
"1" — the last error of the primary retries — and not "4", the error of the
last fallback model (`mistralai/mistral-7b-instruct`, called at index 4): the
fallback loop never stores its errors into `lastError`. -/
theorem claim1_counterexample :
    generateCompletionWithFallback cComplete "anthropic/claude-3-opus" 2 =
      Except.error "1" ∧
    cComplete 4 "mistralai/mistral-7b-instruct" = Except.error "4" ∧
    ("1" : String) ≠ "4" :=
  ⟨rfl, rfl, by decide⟩

/-- Under an all-failing completion oracle, the primary retry loop records the
error of its last attempt. -/
theorem primaryPhase_allFail (complete : Nat → String → Except String String)
    (errF : Nat → String → String) (primary : String)
    (h : ∀ k m, complete k m = Except.error (errF k m)) :
    ∀ (a c : Nat) (l : Option String),
      primaryPhase complete primary (a + 1) { calls := c, lastError := l } =
        .error { calls := c + (a + 1), lastError := some (errF (c + a) primary) } := by
  intro a
  induction a with
  | zero =>
    intro c l
    simp [primaryPhase, h c primary]
  | succ a ih =>
    intro c l
    show (match complete c primary with
      | .ok cnt => Except.ok cnt
      | .error e =>
        primaryPhase complete primary (a + 1) { calls := c + 1, lastError := some e }) = _
    rw [h c primary]
    show primaryPhase complete primary (a + 1) { calls := c + 1, lastError := _ } = _
    rw [ih (c + 1) (some (errF c primary))]
    have h1 : c + 1 + (a + 1) = c + (a + 1 + 1) := by omega
    have h2 : c + 1 + a = c + (a + 1) := by omega
    rw [h1, h2]

/-- Under an all-failing completion oracle, the fallback loop preserves
`lastError` and ends by throwing it. -/
theorem fallbackPhase_allFail (complete : Nat → String → Except String String)
    (errF : Nat → String → String) (primary : String)
    (h : ∀ k m, complete k m = Except.error (errF k m)) :
    ∀ (ms : List String) (st : FallbackState),
      fallbackPhase complete primary ms st =
        .error (st.lastError.getD "All models failed to generate completion") := by
  intro ms
  induction ms with
  | nil => intro st; rfl
  | cons m ms ih =>
    intro st
    simp only [fallbackPhase]
    by_cases hm : m = primary
    · rw [if_pos hm]
      exact ih st
    · rw [if_neg hm, h st.calls m]
      exact ih { st with calls := st.calls + 1 }

/-- Claim C1, amended: if the preferred model fails on every retry and every
fallback model also fails, `generateCompletionWithFallback` raises the last
error observed during the preferred model's retries (the error of retry
attempt `maxRetries`); errors raised by the fallback models are logged but
never stored, so the raised error is neither the first error nor the last
fallback's error. -/
theorem claim1_raises_last_primary_error
    (complete : Nat → String → Except String String) (errF : Nat → String → String)
    (primary : String) (n : Nat)
    (h : ∀ k m, complete k m = Except.error (errF k m)) :
    generateCompletionWithFallback complete primary (n + 1) =
      Except.error (errF n primary) := by
  show (match primaryPhase complete primary (n + 1) { calls := 0, lastError := none } with
    | .ok c => Except.ok c
    | .error st => fallbackPhase complete primary fallbackModels st) = _
  rw [primaryPhase_allFail complete errF primary h n 0 none]
  show fallbackPhase complete primary fallbackModels
    { calls := 0 + (n + 1), lastError := some (errF (0 + n) primary) } = _
  rw [fallbackPhase_allFail complete errF primary h]
  show Except.error ((some (errF (0 + n) primary)).getD _) = _
  rw [Nat.zero_add]
  rfl

/-- Witness for the amended Claim C1 theorem: the all-failing oracle
`cComplete` with two retries of a primary model raises the error of the second
(last) primary attempt. -/
theorem claim1_raises_last_primary_error_witness :
    generateCompletionWithFallback cComplete "anthropic/claude-3-opus" 2 =
      Except.error "1" :=
  claim1_raises_last_primary_error cComplete (fun k _ => toString k)
    "anthropic/claude-3-opus" 1 (fun _ _ => rfl)

/-! ## Virtual Repository Store (`github-service.ts`, `cloneRepository` lines
366-436 and `getRepoDetails` lines 585-610) -/

/-- Successful JSON body of the GitHub metadata API `GET /repos/:owner/:name`:
the three fields read by `getRepoDetails`, each possibly `null`/absent. -/
structure ApiRepoResponse where
  description : Option String
  stargazers_count : Option Nat
  forks_count : Option Nat
deriving Repr

/-- Return value of `getRepoDetails`. -/
structure RepoDetails where
  description : String
  stars : Nat
  forks : Nat
deriving Repr, DecidableEq

/-- `getRepoDetails` (lines 585-610): the metadata fetch outcome is passed as
an `Except`; on success each field defaults with `|| ''` / `|| 0`, and any
error is caught and degraded to the same defaults — the function never
throws. -/
def getRepoDetails (fetch : Except String ApiRepoResponse) : RepoDetails :=
  match fetch with
  | .ok r =>
    { description := r.description.getD "",
      stars := r.stargazers_count.getD 0,
      forks := r.forks_count.getD 0 }
  | .error _ => { description := "", stars := 0, forks := 0 }

/-- `GitHubRepo` (`github-service.ts` lines 294-304). -/
structure GitHubRepo where
  name : String
  owner : String
  url : String
  description : String
  stars : Nat
  forks : Nat
  cloned : Bool
  fileCount : Nat
  fileTypes : List (String × Nat)
deriving Repr

/-- The repository record built by `cloneRepository` after a successful git
clone (lines 412-431): owner and name come from the URL match, the metadata
comes from `getRepoDetails` with `description || 'No description'`, and the
file statistics come from `analyzeRepoContent`. -/
def cloneRepository (owner repoName url : String)
    (metaFetch : Except String ApiRepoResponse)
    (fileCount : Nat) (fileTypes : List (String × Nat)) : GitHubRepo :=
  let repoDetails := getRepoDetails metaFetch
  { name := repoName,
    owner := owner,
    url := url,
    description := if repoDetails.description = "" then "No description"
      else repoDetails.description,
    stars := repoDetails.stars,
    forks := repoDetails.forks,
    cloned := true,
    fileCount := fileCount,
    fileTypes := fileTypes }

/-- Claim C3, counterexample: when the metadata fetch fails, the repository
record's description is the placeholder string "No description" — produced by
`repoDetails.description || 'No description'` at line 425 — and not the empty
string the claim asserts. -/
theorem claim3_counterexample :
    (cloneRepository "octocat" "hello-world" "https://github.com/octocat/hello-world"
        (Except.error "metadata fetch failed") 0 []).description = "No description" ∧
    ("No description" : String) ≠ "" :=
  ⟨rfl, by decide⟩

/-- Claim C3, amended: a failed host-metadata fetch never blocks the clone —
`getRepoDetails` catches the error internally — and the returned repository
record carries the placeholder description "No description" (not the empty
string) together with zero star and fork counts, with `cloned = true`. -/
theorem claim3_metadata_failure_degrades (owner repoName url errMsg : String)
    (fileCount : Nat) (fileTypes : List (String × Nat)) :
    getRepoDetails (Except.error errMsg) = { description := "", stars := 0, forks := 0 } ∧
    (cloneRepository owner repoName url (Except.error errMsg) fileCount fileTypes).cloned =
      true ∧
    (cloneRepository owner repoName url (Except.error errMsg) fileCount
        fileTypes).description = "No description" ∧
    (cloneRepository owner repoName url (Except.error errMsg) fileCount fileTypes).stars =
      0 ∧
    (cloneRepository owner repoName url (Except.error errMsg) fileCount fileTypes).forks =
      0 :=
  ⟨rfl, rfl, rfl, rfl, rfl⟩

/-! ## Context Assembler (`ai-service.ts`, `buildRepositoryContext`, lines 474-508) -/

/-- `const maxContentLength = 1000` (line 499): the `maxCharsPerFile` cap. -/
def maxContentLength : Nat := 1000

/-- The truncation marker appended at line 501. -/
def truncationMarker : String := "... [truncated]"

/-- Per-file truncation of `buildRepositoryContext` (lines 500-502):
`content.length > maxContentLength ? content.substring(0, maxContentLength) +
'... [truncated]' : content`. -/
def truncateContent (content : String) : String :=
  if maxContentLength < content.length then
    String.mk (content.data.take maxContentLength) ++ truncationMarker
  else content

/-- The per-file section emitted by `buildRepositoryContext` (line 504):
`context += `\n--- ${filePath} ---\n${truncatedContent}\n``. -/
def fileSection (filePath content : String) : String :=
  "\n--- " ++ filePath ++ " ---\n" ++ truncateContent content ++ "\n"

/-- Claim C6: the truncated per-file content never exceeds `maxCharsPerFile`
(1000) characters plus the truncation-marker length, the whole per-file section
never exceeds that plus the fixed header around the file path, and the
truncation marker is appended exactly when the content length exceeds 1000. -/
theorem claim6_per_file_cap (filePath content : String) :
    (truncateContent content).length ≤ maxContentLength + truncationMarker.length ∧
    (fileSection filePath content).length ≤
      filePath.length + 11 + maxContentLength + truncationMarker.length ∧
    (truncateContent content =
        String.mk (content.data.take maxContentLength) ++ truncationMarker ↔
      maxContentLength < content.length) := by
  have hmk : ∀ (l : List Char) (s : String),
      (String.mk l ++ s).length = l.length + s.length := by
    intro l s
    cases s
    simp [String.length, String.append]
  have hdl : content.length = content.data.length := rfl
  have hmark : truncationMarker.length = 15 := rfl
  have hbound : (truncateContent content).length ≤
      maxContentLength + truncationMarker.length := by
    by_cases h : maxContentLength < content.length
    · rw [truncateContent, if_pos h, hmk]
      have htk : (content.data.take maxContentLength).length ≤ maxContentLength := by
        rw [List.length_take]
        exact Nat.min_le_left _ _
      omega
    · rw [truncateContent, if_neg h]
      have hle : content.length ≤ maxContentLength := Nat.le_of_not_lt h
      omega
  refine ⟨hbound, ?_, ?_⟩
  · have h5a : ("\n--- " : String).length = 5 := rfl
    have h5b : (" ---\n" : String).length = 5 := rfl
    have h1n : ("\n" : String).length = 1 := rfl
    simp only [fileSection, String.length_append, h5a, h5b, h1n]
    omega
  · constructor
    · intro heq
      by_contra h
      have hle : content.length ≤ maxContentLength := Nat.le_of_not_lt h
      rw [truncateContent, if_neg h] at heq
      have hlen := congrArg String.length heq
      rw [hmk] at hlen
      have htake : (content.data.take maxContentLength).length = content.data.length := by
        rw [List.length_take]
        apply Nat.min_eq_right
        omega
      omega
    · intro h
      rw [truncateContent, if_pos h]

/-- Witness for the Claim C6 theorem at a concrete file path and content. -/
theorem claim6_per_file_cap_witness :
    (truncateContent "print(42)").length ≤ maxContentLength + truncationMarker.length ∧
    truncateContent "print(42)" = "print(42)" :=
  ⟨(claim6_per_file_cap "main.py" "print(42)").1, rfl⟩

/-! ## Connectivity check (`ai-service.ts`, `checkApiConnectivity`, lines 1421-1513) -/

/-- The eight models of `this.models` (lines 57-66), used as `ourRequiredModels`
at line 1466. -/
def requiredModels : List String :=
  [ "anthropic/claude-instant-1",
    "anthropic/claude-3-opus",
    "anthropic/claude-3-sonnet",
    "meta-llama/llama-2-13b-chat",
    "google/palm-2-chat-bison",
    "google/gemini-pro",
    "mistralai/mistral-7b-instruct",
    "mistralai/mixtral-8x7b-instruct" ]

/-- Status component of `{ status: 'ok' | 'error' }`. -/
inductive ApiStatus where
  | ok
  | error
deriving Repr, DecidableEq

/-- The value returned by `checkApiConnectivity`. -/
structure ApiCheckResult where
  status : ApiStatus
  message : Option String
deriving Repr, DecidableEq

/-- The `lastApiCheck` cache entry (line 69):
`{ timestamp: number, status: 'ok' | 'error', message?: string }`. -/
structure ApiCheckCache where
  timestamp : Int
  status : ApiStatus
  message : Option String
deriving Repr, DecidableEq

/-- Outcome of the `fetch` of `GET /models` and of the subsequent body
processing, passed to the embedding as an explicit argument:
`netError` models a thrown network-level exception, `httpError` a non-OK HTTP
status (with the error message recovered from the JSON body, when parseable),
`badBody` a response whose JSON parsing or `data.data` access throws, and
`okBody` a successfully parsed list of advertised model identifiers. -/
inductive FetchOutcome where
  | netError (msg : String)
  | httpError (status : Nat) (parsedMsg : Option String)
  | badBody (msg : String)
  | okBody (availableModels : List String)
deriving Repr, DecidableEq

/-- The model-availability stage of `checkApiConnectivity` (lines 1462-1499):
`missingModels` is computed against the eight required models; if some are
missing and none of the three hard-coded fallback models is advertised the
result is an error, otherwise OK. -/
def modelsCheck (now : Int) (availableModels : List String) :
    ApiCheckResult × Option ApiCheckCache :=
  if (requiredModels.filter (fun m => !(availableModels.contains m))).isEmpty then
    ({ status := .ok, message := none },
      some { timestamp := now, status := .ok, message := none })
  else if fallbackModels.any (fun m => availableModels.contains m) then
    ({ status := .ok, message := none },
      some { timestamp := now, status := .ok, message := none })
  else
    ({ status := .error,
       message := some "Critical models are unavailable. Some features may not work." },
      some { timestamp := now,
             status := .error,
             message := some "Critical models are unavailable. Some features may not work." })

/-- The cache-miss body of `checkApiConnectivity` (lines 1431-1512): returns
the result together with the new `lastApiCheck` cache entry.  Every failure
path — thrown exception, non-OK status, malformed body, missing critical
models — is converted to an `error` result with a message and recorded in the
cache with the current timestamp; the function itself never throws. -/
def checkFresh (now : Int) (outcome : FetchOutcome) :
    ApiCheckResult × Option ApiCheckCache :=
  match outcome with
  | .netError m =>
    ({ status := .error, message := some m },
      some { timestamp := now, status := .error, message := some m })
  | .httpError status parsedMsg =>
    let m := parsedMsg.getD ("API connection check failed with status " ++ toString status)
    ({ status := .error, message := some m },
      some { timestamp := now, status := .error, message := some m })
  | .badBody m =>
    ({ status := .error, message := some m },
      some { timestamp := now, status := .error, message := some m })
  | .okBody availableModels => modelsCheck now availableModels

/-- `checkApiConnectivity` (lines 1421-1513): if a cached result exists and is
less than 60 seconds (60000 ms) old, it is returned unchanged and the fetch
outcome is never consulted; otherwise the fresh check runs. -/
def checkApiConnectivity (cache : Option ApiCheckCache) (now : Int)
    (outcome : FetchOutcome) : ApiCheckResult × Option ApiCheckCache :=
  match cache with
  | some c =>
    if now - c.timestamp < 60000 then ({ status := c.status, message := c.message }, some c)
    else checkFresh now outcome
  | none => checkFresh now outcome

/-- Claim C7: a connectivity result cached less than 60 seconds earlier —
including an ERROR result — is returned with its status and message unchanged,
the cache is untouched, and the fetch outcome argument does not appear in the
result: no new network request is made. -/
theorem claim7_cache_short_circuit (c : ApiCheckCache) (now : Int) (o : FetchOutcome)
    (h : now - c.timestamp < 60000) :
    checkApiConnectivity (some c) now o =
      ({ status := c.status, message := c.message }, some c) := by
  show (if now - c.timestamp < 60000 then _ else _) = _
  rw [if_pos h]

/-- Witness for the Claim C7 theorem: an ERROR result cached at t = 0 is
returned verbatim at t = 30 s regardless of the fetch outcome. -/
theorem claim7_cache_short_circuit_witness :
    checkApiConnectivity
        (some { timestamp := 0, status := .error, message := some "rate limited" })
        30000 (.okBody requiredModels) =
      ({ status := .error, message := some "rate limited" },
        some { timestamp := 0, status := .error, message := some "rate limited" }) :=
  claim7_cache_short_circuit
    { timestamp := 0, status := .error, message := some "rate limited" }
    30000 (.okBody requiredModels) (by decide)

/-- Claim C5, counterexample: with only `anthropic/claude-3-opus` advertised by
the provider, the advertised model list is not empty — models are not totally
unavailable — yet the model-availability check reports ERROR, because none of
the three hard-coded fallback models is advertised (lines 1477-1491). -/
theorem claim5_counterexample :
    (checkApiConnectivity none 0 (.okBody ["anthropic/claude-3-opus"])).1.status =
      ApiStatus.error ∧
    (["anthropic/claude-3-opus"] : List String) ≠ [] := by
  refine ⟨rfl, by decide⟩

/-- Claim C5, amended: on a fresh check with a successfully parsed model list,
the model-availability check reports OK exactly when at least one of the three
hard-coded fallback models (`google/gemini-pro`, `anthropic/claude-instant-1`,
`mistralai/mistral-7b-instruct`) is advertised; total unavailability of the
fallback models — not of all models — is the only ERROR outcome of this
stage. -/
theorem claim5_ok_iff_fallback_available (availableModels : List String) (now : Int) :
    (checkFresh now (.okBody availableModels)).1.status = ApiStatus.ok ↔
      fallbackModels.any (fun m => availableModels.contains m) = true := by
  show (modelsCheck now availableModels).1.status = ApiStatus.ok ↔ _
  rw [modelsCheck]
  by_cases hmiss :
      (requiredModels.filter (fun m => !(availableModels.contains m))).isEmpty = true
  · rw [if_pos hmiss]
    constructor
    · intro _
      have hgem : availableModels.contains "google/gemini-pro" = true := by
        have hmem : ("google/gemini-pro" : String) ∈ requiredModels := by decide
        by_contra hc
        have hcf : (!(availableModels.contains "google/gemini-pro")) = true := by
          cases hb : availableModels.contains "google/gemini-pro" with
          | false => rfl
          | true => exact absurd hb hc
        have hmemf : ("google/gemini-pro" : String) ∈
            requiredModels.filter (fun m => !(availableModels.contains m)) :=
          List.mem_filter.mpr ⟨hmem, hcf⟩
        rw [List.isEmpty_iff] at hmiss
        rw [hmiss] at hmemf
        exact List.not_mem_nil _ hmemf
      exact List.any_eq_true.mpr ⟨"google/gemini-pro", by decide, hgem⟩
    · intro _
      rfl
  · rw [if_neg hmiss]
    by_cases hfb : fallbackModels.any (fun m => availableModels.contains m) = true
    · rw [if_pos hfb]
      exact ⟨fun _ => hfb, fun _ => rfl⟩
    · rw [if_neg hfb]
      constructor
      · intro hcontra
        exact ApiStatus.noConfusion hcontra
      · intro hfb2
        exact absurd hfb2 hfb

/-- Witness for the amended Claim C5 theorem: with only the fallback model
`google/gemini-pro` advertised, the model-availability stage reports OK. -/
theorem claim5_ok_iff_fallback_available_witness :
    (checkFresh 0 (.okBody ["google/gemini-pro"])).1.status = ApiStatus.ok :=
  (claim5_ok_iff_fallback_available ["google/gemini-pro"] 0).mpr (by decide)

/-- The cache-freshness test of `checkApiConnectivity` (line 1424):
`this.lastApiCheck && (now - this.lastApiCheck.timestamp) < 60000`. -/
def cacheFresh (cache : Option ApiCheckCache) (now : Int) : Bool :=
  match cache with
  | some c => decide (now - c.timestamp < 60000)
  | none => false

/-- The fetch outcomes that are failures at the transport or body level: a
network-level exception, a non-OK HTTP status, or a malformed response body. -/
def isFailureOutcome : FetchOutcome → Bool
  | .netError _ => true
  | .httpError _ _ => true
  | .badBody _ => true
  | .okBody _ => false

/-- Claim C10: `checkApiConnectivity` never throws — the embedding is a total
function — and on a fresh check every transport- or body-level failure
(non-OK HTTP status, malformed response body, or network-level exception)
yields a result with status `error` and some message, and records exactly that
outcome in the connectivity cache with the current timestamp. -/
theorem claim10_failure_is_cached_error (cache : Option ApiCheckCache) (now : Int)
    (o : FetchOutcome) (hc : cacheFresh cache now = false)
    (ho : isFailureOutcome o = true) :
    ∃ m, checkApiConnectivity cache now o =
      ({ status := .error, message := some m },
        some { timestamp := now, status := .error, message := some m }) := by
  have hfresh : checkApiConnectivity cache now o = checkFresh now o := by
    match cache with
    | none => rfl
    | some c =>
      have hnot : ¬ (now - c.timestamp < 60000) := by
        simp only [cacheFresh, decide_eq_false_iff_not] at hc
        exact hc
      show (if now - c.timestamp < 60000 then _ else _) = _
      rw [if_neg hnot]
  rw [hfresh]
  match o with
  | .netError m => exact ⟨m, rfl⟩
  | .httpError status parsedMsg =>
    exact ⟨parsedMsg.getD ("API connection check failed with status " ++ toString status),
      rfl⟩
  | .badBody m => exact ⟨m, rfl⟩
  | .okBody avail => exact absurd ho (by simp [isFailureOutcome])

/-- Witness for the Claim C10 theorem: an empty cache and a network-level
exception produce a cached ERROR with the current timestamp. -/
theorem claim10_failure_is_cached_error_witness :
    ∃ m, checkApiConnectivity none 12345 (.netError "socket hang up") =
      ({ status := .error, message := some m },
        some { timestamp := 12345, status := .error, message := some m }) :=
  claim10_failure_is_cached_error none 12345 (.netError "socket hang up") rfl rfl

/-! ## File reads (`github-service.ts` `getFileContent` lines 467-504 and
`ai-service.ts` `getFileContent` lines 339-363)

The virtual filesystem is modelled as a partial map from full path strings to
file contents. -/

/-- Character-list form of the one-slash strip. -/
def stripSlashList : List Char → List Char
  | [] => []
  | c :: rest => if c = '/' then rest else c :: rest

/-- The leading-slash normalisation used in both layers: `if
(filePath.startsWith('/')) filePath = filePath.slice(1)` (github-service line
476) and `filePath = filePath.substring(1)` (ai-service line 348). -/
def stripLeadingSlash (p : String) : String := String.mk (stripSlashList p.data)

/-- `GitHubService.getFileContent` (lines 467-504): strip at most one leading
slash, build ``/${owner}/${repoName}/${filePath}`` and read it from the
virtual filesystem; a missing file becomes a thrown `File not found` error. -/
def GitHubService.getFileContent (fsRead : String → Option String)
    (owner repoName filePath : String) : Except String String :=
  let fullPath := "/" ++ owner ++ "/" ++ repoName ++ "/" ++ stripLeadingSlash filePath
  match fsRead fullPath with
  | some content => .ok content
  | none => .error ("File not found: " ++ fullPath)

/-- `AIService.getFileContent` (lines 339-363): strip at most one leading slash
(lines 347-349), then delegate to `GitHubService.getFileContent` with the
loaded repository's owner and name. -/
def AIService.getFileContent (fsRead : String → Option String)
    (owner repoName filePath : String) : Except String String :=
  GitHubService.getFileContent fsRead owner repoName (stripLeadingSlash filePath)

/-- A concrete one-file virtual filesystem distinguishing the two resolved
paths of the Claim C9 counterexample. -/
def fsC9 (path : String) : Option String :=
  if path = "/o/r/x" then some "content-of-x" else none

/-- Claim C9, counterexample: the two layers EACH strip one leading slash, so
for the path `//x` the call with `//x` resolves to `/o/r/x` while the call
with the slash-prefixed form `///x` resolves to `/o/r//x`; on a filesystem
where only `/o/r/x` exists the two results differ, refuting the claim that
exactly one leading slash is stripped and that `p` and `'/' + p` always denote
the same file. -/
theorem claim9_counterexample :
    AIService.getFileContent fsC9 "o" "r" "//x" = Except.ok "content-of-x" ∧
    AIService.getFileContent fsC9 "o" "r" ("/" ++ "//x") =
      Except.error "File not found: /o/r//x" ∧
    AIService.getFileContent fsC9 "o" "r" "//x" ≠
      AIService.getFileContent fsC9 "o" "r" ("/" ++ "//x") := by
  refine ⟨rfl, rfl, fun h => Except.noConfusion h⟩

/-- Paths beginning with two slashes, the inputs excluded by the amended
Claim C9. -/
def startsWithTwoSlashes (p : String) : Bool := "//".data.isPrefixOf p.data

/-- Claim C9, amended: for every path `p` that does not begin with two
slashes, `getFileContent` applied to `p` and to `'/' + p` return identical
results; at most one leading slash is stripped by EACH of the two layers
(ai-service line 347-349 and github-service line 476-478), so a single extra
leading slash is absorbed, and only doubled slashes (which survive into the
constructed full path) can change the denoted file. -/
theorem claim9_slash_equiv (fsRead : String → Option String)
    (owner repoName p : String) (h : startsWithTwoSlashes p = false) :
    AIService.getFileContent fsRead owner repoName p =
      AIService.getFileContent fsRead owner repoName ("/" ++ p) := by
  have hdata : ("/" ++ p).data = '/' :: p.data := by cases p; rfl
  have h1 : stripLeadingSlash ("/" ++ p) = String.mk p.data := by
    simp [stripLeadingSlash, hdata, stripSlashList]
  have h2 : String.mk p.data = p := by cases p; rfl
  show GitHubService.getFileContent fsRead owner repoName (stripLeadingSlash p) =
    GitHubService.getFileContent fsRead owner repoName (stripLeadingSlash ("/" ++ p))
  rw [h1, h2]
  have key : stripLeadingSlash (stripLeadingSlash p) = stripLeadingSlash p := by
    cases hl : p.data with
    | nil => simp [stripLeadingSlash, stripSlashList, hl]
    | cons c rest =>
      by_cases hc : c = '/'
      · subst hc
        cases rest with
        | nil => simp [stripLeadingSlash, stripSlashList, hl]
        | cons d t =>
          have hd : d ≠ '/' := by
            intro hdd
            subst hdd
            rw [startsWithTwoSlashes, hl] at h
            simp [List.isPrefixOf] at h
          simp [stripLeadingSlash, stripSlashList, hl, hd]
      · simp [stripLeadingSlash, stripSlashList, hl, hc]
  simp only [GitHubService.getFileContent, key]

/-- Witness for the amended Claim C9 theorem: for the ordinary repo-relative
path `x`, the slash-prefixed form `/x` reads the same file. -/
theorem claim9_slash_equiv_witness :
    AIService.getFileContent fsC9 "o" "r" "x" =
      AIService.getFileContent fsC9 "o" "r" ("/" ++ "x") :=
  claim9_slash_equiv fsC9 "o" "r" "x" (by decide)

/-! ## Agent Protocol Parser (`ai-service.ts`, `parseImplementationResponse`
lines 1081-1112 and `parseAutonomousResponse` lines 1263-1293)

Both methods scan free text with the regexes
`/LABEL:\s*\n([\s\S]*?)(?=STOPPER:|$)/` for the explanation and
`/\[FILE: (.+?)\]\s*(three backticks)(?:\w*\n)?([\s\S]*?)(three backticks)/g`
for the file blocks.  The embedding implements the same scanning, including
the lazy path/content matching and the leftmost-match backtracking of the
JavaScript regex engine. -/

/-- Match a literal character sequence at the head of the input, returning the
remainder. -/
def dropLit : List Char → List Char → Option (List Char)
  | [], cs => some cs
  | _ :: _, [] => none
  | p :: ps, c :: cs => if c = p then dropLit ps cs else none

/-- Leftmost occurrence of a literal: split the input at the first match,
returning the part before it and the part after it. -/
def splitAtFirst (pat : List Char) : List Char → Option (List Char × List Char)
  | [] =>
    match dropLit pat [] with
    | some rest => some ([], rest)
    | none => none
  | c :: cs =>
    match dropLit pat (c :: cs) with
    | some rest => some ([], rest)
    | none =>
      match splitAtFirst pat cs with
      | some (before, after) => some (c :: before, after)
      | none => none

/-- Literal-occurrence test used to state absence of a marker. -/
def containsList (pat : List Char) : List Char → Bool
  | [] => (dropLit pat []).isSome
  | c :: cs => (dropLit pat (c :: cs)).isSome || containsList pat cs

/-- `occursIn pat s` : the literal `pat` occurs somewhere in `s`. -/
def occursIn (pat s : String) : Bool := containsList pat.data s.data

/-- JavaScript regex `\s` (the whitespace characters relevant to generated
text: space, tab, newline, carriage return, vertical tab, form feed). -/
def isSpaceChar (c : Char) : Bool :=
  c == ' ' || c == '\t' || c == '\n' || c == '\r' || c == Char.ofNat 11 || c == Char.ofNat 12

/-- JavaScript regex `\w` : ASCII letters, digits and underscore. -/
def isWordChar (c : Char) : Bool := c.isAlphanum || c == '_'

/-- JavaScript `String.prototype.trim`. -/
def trimChars (l : List Char) : List Char :=
  ((l.dropWhile isSpaceChar).reverse.dropWhile isSpaceChar).reverse

/-- The `[FILE: ` marker opening every file block. -/
def fileMarker : List Char := ("[FILE: " : String).data

/-- The three-backtick code fence delimiter. -/
def fenceLit : List Char := ("```" : String).data

/-- A recovered file modification: `{path, content}` as pushed at lines
1101-1104 / 1283-1286. -/
structure FileMod where
  path : String
  content : String
deriving Repr, DecidableEq

/-- All candidate splits of the text after `[FILE: ` into a path and a
remainder: the lazy `(.+?)\]` matches the shortest non-empty newline-free
prefix followed by `]`, backtracking to longer prefixes (which may contain
`]`) when the rest of the pattern fails; candidates are produced shortest
first. -/
def pathSplitsAux (acc : List Char) : List Char → List (List Char × List Char)
  | [] => []
  | c :: cs =>
    if c = '\n' then []
    else
      (if c = ']' then (if acc.isEmpty then [] else [(acc.reverse, cs)]) else []) ++
        pathSplitsAux (c :: acc) cs

/-- Match `\s*` then an opening fence, the optional `(?:\w*\n)?` language tag,
and the lazy `([\s\S]*?)` content up to the first closing fence; returns the
content and the remainder after the closing fence. -/
def matchFence (cs : List Char) : Option (List Char × List Char) :=
  match dropLit fenceLit (cs.dropWhile isSpaceChar) with
  | none => none
  | some afterFence =>
    let afterLang :=
      match afterFence.dropWhile isWordChar with
      | '\n' :: rest => rest
      | _ => afterFence
    splitAtFirst fenceLit afterLang

/-- Try the path candidates in lazy order; the first whose continuation
matches a fenced block wins. -/
def tryCandidates : List (List Char × List Char) → Option (FileMod × List Char)
  | [] => none
  | (path, rest) :: more =>
    match matchFence rest with
    | some (content, after) =>
      some ({ path := String.mk (trimChars path),
              content := String.mk (trimChars content) }, after)
    | none => tryCandidates more

/-- Attempt a full file-block match starting exactly at the head of the
input. -/
def matchFileAt (cs : List Char) : Option (FileMod × List Char) :=
  match dropLit fileMarker cs with
  | none => none
  | some rest => tryCandidates (pathSplitsAux [] rest)

/-- The global-regex scan of the `while ((match = fileRegex.exec(response)) !==
null)` loops (lines 1095-1105 / 1277-1287): find successive non-overlapping
file blocks left to right; on a failed start position advance one character.
The fuel argument is the remaining input length plus one. -/
def scanFileBlocks : Nat → List Char → List FileMod
  | 0, _ => []
  | _ + 1, [] => []
  | fuel + 1, c :: cs =>
    match matchFileAt (c :: cs) with
    | some (fm, rest) => fm :: scanFileBlocks fuel rest
    | none => scanFileBlocks fuel cs

/-- All file blocks of a response, paths and contents trimmed. -/
def extractFileBlocks (response : String) : List FileMod :=
  scanFileBlocks (response.data.length + 1) response.data

/-- Match the explanation label at the head of the input: the literal label,
then `\s*\n` — greedy whitespace whose last consumed character is a newline
(so the run must contain at least one newline); returns the capture start. -/
def matchLabelAt (label : List Char) (cs : List Char) : Option (List Char) :=
  match dropLit label cs with
  | none => none
  | some rest =>
    let ws := rest.takeWhile isSpaceChar
    let consumed := (ws.reverse.dropWhile (fun c => c != '\n')).length
    if consumed = 0 then none else some (rest.drop consumed)

/-- Scan for the first position at which the explanation label matches. -/
def findLabel (label : List Char) : List Char → Option (List Char)
  | [] => matchLabelAt label []
  | c :: cs =>
    match matchLabelAt label (c :: cs) with
    | some rest => some rest
    | none => findLabel label cs

/-- The lazy capture `([\s\S]*?)(?=STOPPER|$)` : everything up to the first
occurrence of the stopper, or the whole remainder when the stopper is
absent. -/
def captureUpTo (stopper : List Char) (cs : List Char) : List Char :=
  match splitAtFirst stopper cs with
  | some (before, _) => before
  | none => cs

/-- The explanation extraction shared by both parsers (lines 1088-1091 and
1270-1273): match the labelled section and trim it, or default to the empty
string. -/
def extractLabeledSection (label stopper response : String) : String :=
  match findLabel label.data response.data with
  | some rest => String.mk (trimChars (captureUpTo stopper.data rest))
  | none => ""

/-- Result of `parseAutonomousResponse` (lines 1263-1293). -/
structure AutonomousResult where
  explanation : String
  modifications : List FileMod
deriving Repr, DecidableEq

/-- `parseAutonomousResponse` (lines 1263-1293): explanation from
`/EXPLANATION:\s*\n([\s\S]*?)(?=MODIFIED FILES:|$)/`, file list from the
global file-block regex. -/
def parseAutonomousResponse (response : String) : AutonomousResult :=
  { explanation := extractLabeledSection "EXPLANATION:" "MODIFIED FILES:" response,
    modifications := extractFileBlocks response }

/-- Result of `parseImplementationResponse` (lines 1081-1112). -/
structure ImplementationResult where
  solution : String
  explanation : String
  files : List FileMod
deriving Repr, DecidableEq

/-- `parseImplementationResponse` (lines 1081-1112): the whole response is
returned as `solution`, the explanation comes from
`/SOLUTION EXPLANATION:\s*\n([\s\S]*?)(?=IMPLEMENTATION:|$)/`, and the file
list from the same global file-block regex. -/
def parseImplementationResponse (response : String) : ImplementationResult :=
  { solution := response,
    explanation := extractLabeledSection "SOLUTION EXPLANATION:" "IMPLEMENTATION:" response,
    files := extractFileBlocks response }

/-- If a literal never occurs in the input, the label scan finds nothing. -/
theorem findLabel_eq_none (label : List Char) :
    ∀ cs, containsList label cs = false → findLabel label cs = none := by
  intro cs
  induction cs with
  | nil =>
    intro h
    simp only [containsList] at h
    have hnone : dropLit label [] = none := by
      cases hdl : dropLit label [] with
      | none => rfl
      | some rest => rw [hdl] at h; exact absurd h (by simp)
    show matchLabelAt label [] = none
    unfold matchLabelAt
    rw [hnone]
  | cons c cs ih =>
    intro h
    simp only [containsList, Bool.or_eq_false_iff] at h
    obtain ⟨h3, h4⟩ := h
    have hnone : dropLit label (c :: cs) = none := by
      cases hdl : dropLit label (c :: cs) with
      | none => rfl
      | some rest => rw [hdl] at h3; exact absurd h3 (by simp)
    have hm : matchLabelAt label (c :: cs) = none := by
      unfold matchLabelAt
      rw [hnone]
    show (match matchLabelAt label (c :: cs) with
      | some rest => some rest
      | none => findLabel label cs) = none
    rw [hm]
    exact ih h4

/-- If the `[FILE: ` marker never occurs in the input, the global file-block
scan finds nothing. -/
theorem scanFileBlocks_eq_nil :
    ∀ (fuel : Nat) (cs : List Char), containsList fileMarker cs = false →
      scanFileBlocks fuel cs = [] := by
  intro fuel
  induction fuel with
  | zero => intro cs _; rfl
  | succ fuel ih =>
    intro cs h
    cases cs with
    | nil => rfl
    | cons c cs =>
      simp only [containsList, Bool.or_eq_false_iff] at h
      obtain ⟨h3, h4⟩ := h
      have hnone : dropLit fileMarker (c :: cs) = none := by
        cases hdl : dropLit fileMarker (c :: cs) with
        | none => rfl
        | some rest => rw [hdl] at h3; exact absurd h3 (by simp)
      have hm : matchFileAt (c :: cs) = none := by
        unfold matchFileAt
        rw [hnone]
      show (match matchFileAt (c :: cs) with
        | some (fm, rest) => fm :: scanFileBlocks fuel rest
        | none => scanFileBlocks fuel cs) = []
      rw [hm]
      exact ih cs h4

/-- Claim C8: both agent-protocol parsing functions are total — the embedding
returns a plain value for every input string, never an exception — and they
degrade gracefully: an absent labelled explanation section yields the empty
explanation, and an absent `[FILE: ` marker yields the empty file list; in
`parseImplementationResponse` the raw response is always returned as the
`solution` field. -/
theorem claim8_parse_never_throws (response : String) :
    (occursIn "EXPLANATION:" response = false →
      (parseAutonomousResponse response).explanation = "") ∧
    (occursIn "[FILE: " response = false →
      (parseAutonomousResponse response).modifications = []) ∧
    (occursIn "SOLUTION EXPLANATION:" response = false →
      (parseImplementationResponse response).explanation = "") ∧
    (parseImplementationResponse response).solution = response ∧
    (occursIn "[FILE: " response = false →
      (parseImplementationResponse response).files = []) := by
  refine ⟨?_, ?_, ?_, rfl, ?_⟩
  · intro h
    show extractLabeledSection "EXPLANATION:" "MODIFIED FILES:" response = ""
    unfold extractLabeledSection
    rw [findLabel_eq_none ("EXPLANATION:" : String).data response.data h]
  · intro h
    show extractFileBlocks response = []
    unfold extractFileBlocks
    exact scanFileBlocks_eq_nil (response.data.length + 1) response.data h
  · intro h
    show extractLabeledSection "SOLUTION EXPLANATION:" "IMPLEMENTATION:" response = ""
    unfold extractLabeledSection
    rw [findLabel_eq_none ("SOLUTION EXPLANATION:" : String).data response.data h]
  · intro h
    show extractFileBlocks response = []
    unfold extractFileBlocks
    exact scanFileBlocks_eq_nil (response.data.length + 1) response.data h

/-- Witness for the Claim C8 theorem on a concrete marker-free response. -/
theorem claim8_parse_never_throws_witness :
    (parseAutonomousResponse "I could not produce a patch.").explanation = "" ∧
    (parseAutonomousResponse "I could not produce a patch.").modifications = [] ∧
    (parseImplementationResponse "I could not produce a patch.").explanation = "" ∧
    (parseImplementationResponse "I could not produce a patch.").solution =
      "I could not produce a patch." ∧
    (parseImplementationResponse "I could not produce a patch.").files = [] := by
  have h := claim8_parse_never_throws "I could not produce a patch."
  exact ⟨h.1 (by decide), h.2.1 (by decide), h.2.2.1 (by decide), h.2.2.2.1,
    h.2.2.2.2 (by decide)⟩
